import Mathlib

/-!
Verification development for the ka9q_ubersdr client-side ingestion core
(CW Skimmer DLL `UberSDRIntf`, the Soapy driver and the js8skim client).
Each data structure and operation below is a shallow embedding of the
corresponding C++ code; file and line references point into the repository.
Definitions come first, theorems afterwards.
-/

set_option maxHeartbeats 1000000

namespace UberSDR

/-! ## RingBuffer (UberSDR.h lines 27-105)

The C++ struct stores interleaved I/Q floats in a `std::vector<float>` of
size `capacity * 2`; `writePos`/`readPos` are sample-pair indices reduced
modulo `capacity`.  All index arithmetic is on `size_t`, so subtraction
wraps modulo `2^64`.  The element type is kept generic (`α`); the DLL
instantiates it with 32-bit floats. -/

/-- `size_t` modulus. -/
def MODSIZE : Nat := 2 ^ 64

structure RingBuffer (α : Type) where
  buffer : Nat → α
  writePos : Nat
  readPos : Nat
  capacity : Nat
  underrunCount : Nat
  overrunCount : Nat

namespace RingBuffer

variable {α : Type}

/-- `init(capacityInSamples)` (UberSDR.h lines 44-53).  The vector resize to
`capacity * 2` is implicit in the unbounded index model. -/
def init (rb : RingBuffer α) (capacityInSamples : Nat) : RingBuffer α :=
  { rb with
    capacity := capacityInSamples
    writePos := 0
    readPos := 0
    underrunCount := 0
    overrunCount := 0 }

/-- `available()` (UberSDR.h lines 55-58): `(writePos - readPos + capacity) % capacity`,
computed in `size_t` arithmetic (the inner subtraction wraps modulo `2^64`). -/
def availableC (rb : RingBuffer α) : Nat :=
  (((MODSIZE + rb.writePos - rb.readPos) % MODSIZE + rb.capacity) % MODSIZE) % rb.capacity

/-- `space()` (UberSDR.h lines 60-63): `capacity - available() - 1` in `size_t`
arithmetic. -/
def spaceC (rb : RingBuffer α) : Nat :=
  ((MODSIZE + rb.capacity - rb.availableC) % MODSIZE + (MODSIZE - 1)) % MODSIZE

/-- Well-formedness maintained by every operation: positions stay below the
capacity and the capacity is far below the `size_t` modulus (the DLL
allocates at most two seconds of samples, UberSDR.cpp line 454). -/
def Wf (rb : RingBuffer α) : Prop :=
  0 < rb.capacity ∧ 2 * rb.capacity ≤ MODSIZE ∧
    rb.writePos < rb.capacity ∧ rb.readPos < rb.capacity

/-- `write(I, Q)` (UberSDR.h lines 65-81).  Returns the updated buffer and the
boolean result; on `space() < 1` the sample is dropped and `overrunCount`
is incremented. -/
def write (rb : RingBuffer α) (I Q : α) : RingBuffer α × Bool :=
  if rb.spaceC < 1 then
    ({ rb with overrunCount := rb.overrunCount + 1 }, false)
  else
    let idx := rb.writePos * 2
    ({ rb with
        buffer := Function.update (Function.update rb.buffer idx I) (idx + 1) Q
        writePos := (rb.writePos + 1) % rb.capacity }, true)

/-- `read()` (UberSDR.h lines 83-99).  Returns the sample pair (or `none` on
underrun, bumping `underrunCount`) together with the updated buffer. -/
def read (rb : RingBuffer α) : Option (α × α) × RingBuffer α :=
  if rb.availableC < 1 then
    (none, { rb with underrunCount := rb.underrunCount + 1 })
  else
    let idx := rb.readPos * 2
    (some (rb.buffer idx, rb.buffer (idx + 1)),
      { rb with readPos := (rb.readPos + 1) % rb.capacity })

end RingBuffer

/-- The consumer's underrun substitution (UberSDRIntf.cpp lines 613-624):
when `ringBuffer.read` fails the consumer proceeds with `(0.0f, 0.0f)`
instead of blocking. -/
def consumeReadSample (rb : RingBuffer Float) : (Float × Float) × RingBuffer Float :=
  match rb.read with
  | (none, rb2) => ((0.0, 0.0), rb2)
  | (some p, rb2) => (p, rb2)

/-- A concrete ring buffer of capacity 4 used to instantiate the ring-buffer
theorem on explicit data. -/
def rbEx : RingBuffer Float :=
  { buffer := fun _ => 0.0
    writePos := 0
    readPos := 0
    capacity := 4
    underrunCount := 0
    overrunCount := 0 }

/-! ## WebSocket payload masking (SimpleWebSocket.h lines 56-60,
js8skim/ubersdr.cc lines 192-199)

Both clients mask an outgoing payload by XORing byte `i` with
`mask[i % 4]`; the 4-byte key is carried in the frame header. -/

/-- `applyMask` (SimpleWebSocket.h lines 56-60): XOR byte `i` of the payload
with `mask[i % 4]`.  The key is modelled as a function from the four key
positions; the running index makes the `i % 4` selection explicit.  The
identical per-byte operation appears in `ws_send_frame`
(js8skim/ubersdr.cc lines 192-196). -/
def applyMask : List Nat → (Nat → Nat) → Nat → List Nat
  | [], _, _ => []
  | b :: rest, mask, i => (b ^^^ mask (i % 4)) :: applyMask rest mask (i + 1)

/-! ## Block assembler barrier (UberSDRIntf.cpp lines 41-55, 562-826)

Global state of the pacing core: `gRxMask`/`gRxFilled` bitmasks,
per-receiver double-buffer bucket `gBucket[i]`, in/out block pointers
`gInPtr`/`gOutPtr` (each pointing into either `gData1[i]` or `gData2[i]`)
and the per-receiver sample counter `gDataSamples[i]`. -/

/-- Which of the two per-receiver block buffers a pointer refers to
(`gData1[i]` or `gData2[i]`). -/
inductive Buf
  | data1
  | data2
deriving DecidableEq, Repr

structure AsmState where
  rxMask : Nat
  rxFilled : Nat
  bucket : Nat → Bool
  dataSamples : Nat → Nat
  inPtr : Nat → Buf
  outPtr : Nat → Buf
  totalCallbacks : Nat

/-- The block-full path of `ConsumeRingBuffers` (UberSDRIntf.cpp lines
691-783), entered when `gDataSamples[i] >= gBlockInSamples`: under the
assembler lock, set bit `i` in `gRxFilled` and toggle `gBucket[i]` only if
the bit is not already set; re-derive `gInPtr[i]`/`gOutPtr[i]` from the
(possibly toggled) bucket; zero `gDataSamples[i]`; if `gRxFilled == gRxMask`,
invoke the downstream callback with the `gOutPtr` vector (guarded in the
source by `gSet.pIQProc != NULL`), bump the callback counter, and clear
`gRxFilled`.  The returned option carries the callback argument when the
barrier releases. -/
def blockFull (s : AsmState) (i : Nat) : AsmState × Option (Nat → Buf) :=
  let filled1 := if s.rxFilled.testBit i then s.rxFilled else s.rxFilled ||| 2 ^ i
  let bucket1 := if s.rxFilled.testBit i then s.bucket
                 else Function.update s.bucket i (!s.bucket i)
  let inPtr1 := Function.update s.inPtr i (if bucket1 i then Buf.data2 else Buf.data1)
  let outPtr1 := Function.update s.outPtr i (if bucket1 i then Buf.data1 else Buf.data2)
  let ds1 := Function.update s.dataSamples i 0
  if filled1 = s.rxMask then
    ({ s with rxFilled := 0, bucket := bucket1, inPtr := inPtr1, outPtr := outPtr1,
              dataSamples := ds1, totalCallbacks := s.totalCallbacks + 1 }, some outPtr1)
  else
    ({ s with rxFilled := filled1, bucket := bucket1, inPtr := inPtr1, outPtr := outPtr1,
              dataSamples := ds1 }, none)

/-- One consumer tick for receiver `i` (UberSDRIntf.cpp lines 688-691):
`gDataSamples[receiverID]++`, then the block-full path if the incremented
counter reached `gBlockInSamples` (`B`).  Sample contents are not
tracked. -/
def receiverTick (B : Nat) (s : AsmState) (i : Nat) : AsmState × Option (Nat → Buf) :=
  if B ≤ s.dataSamples i + 1 then
    blockFull { s with dataSamples := Function.update s.dataSamples i (s.dataSamples i + 1) } i
  else
    ({ s with dataSamples := Function.update s.dataSamples i (s.dataSamples i + 1) }, none)

/-- A concrete barrier state: two receivers in the mask, receiver 0 already
filled, used to instantiate the barrier theorem. -/
def asmEx : AsmState :=
  { rxMask := 3
    rxFilled := 1
    bucket := fun _ => false
    dataSamples := fun _ => 0
    inPtr := fun _ => Buf.data1
    outPtr := fun _ => Buf.data1
    totalCallbacks := 0 }

/-! ## Receiver records and StopReceiver (UberSDR.h lines 19-24 and 108-130,
UberSDR.cpp lines 502-559) -/

/-- `ConnectionState` (UberSDR.h lines 19-24). -/
inductive ConnState
  | DISCONNECTED
  | CONNECTING
  | CONNECTED
  | ERROR_STATE
deriving DecidableEq, Repr

/-- The fields of `ReceiverInfo` (UberSDR.h lines 108-130) relevant to the
lifecycle claims; the `wsClient` pointer and the `reconnectThread` handle
are abstracted to presence flags and the ring buffer is tracked
separately. -/
structure ReceiverInfo where
  frequency : Int
  active : Bool
  state : ConnState
  needsReconnect : Bool
  generation : Nat
  hasWsClient : Bool
  hasReconnectThread : Bool
deriving DecidableEq, Repr

/-- `UberSDR::DisconnectWebSocket` (UberSDR.cpp lines 973-1080), state
effects on the receiver record: when `wsClient` is non-null the generation
is incremented (line 990, invalidating pending callbacks), the pointer is
nulled and the state set to `DISCONNECTED`; when it is already null only
the state is set to `DISCONNECTED` (line 1047). -/
def disconnectWebSocket (r : ReceiverInfo) : ReceiverInfo :=
  if r.hasWsClient then
    { r with
      generation := r.generation + 1
      hasWsClient := false
      state := ConnState.DISCONNECTED }
  else
    { r with state := ConnState.DISCONNECTED }

/-- The engine state touched by `StopReceiver`: the receiver array, the
`activeReceivers` counter (UberSDR.h line 149) and the assembler barrier
state of UberSDRIntf.cpp. -/
structure Engine where
  recv : Nat → ReceiverInfo
  activeReceivers : Nat
  asmSt : AsmState

/-- `UberSDR::StopReceiver` (UberSDR.cpp lines 502-559), state effects only:
out-of-range ids and inactive receivers return unchanged; otherwise the
receiver's `active`, `needsReconnect` are cleared and its `state` set to
`DISCONNECTED` under the lock, the reconnection thread is joined and its
handle nulled, `DisconnectWebSocket(receiverID)` is called (line 540 —
incrementing the generation when a socket is live), and `activeReceivers`
is decremented if positive (`Nat` subtraction models the
`if (activeReceivers > 0)` guard exactly).  No field of the assembler state
— in particular neither `gRxMask` nor `gRxFilled` — is touched. -/
def stopReceiver (e : Engine) (i : Nat) : Engine :=
  if 8 ≤ i then e
  else if !(e.recv i).active then e
  else
    { e with
      recv := Function.update e.recv i
        (disconnectWebSocket
          { e.recv i with
            active := false
            needsReconnect := false
            state := ConnState.DISCONNECTED
            hasReconnectThread := false })
      activeReceivers := e.activeReceivers - 1 }

/-- A concrete engine: receivers 0 and 1 active, connected with live
sockets and in the barrier mask, receiver 0 already filled. -/
def engineEx : Engine :=
  { recv := fun _ =>
      { frequency := 14074000
        active := true
        state := ConnState.CONNECTED
        needsReconnect := false
        generation := 0
        hasWsClient := true
        hasReconnectThread := false }
    activeReceivers := 2
    asmSt := asmEx }

/-! ## Generation counter and stale-callback filtering
(UberSDR.cpp lines 727-731, 827-844, 984-999) -/

/-- The two code paths that increment `receivers[id].generation`: the
admitted reconnection attempt in `HandleReconnection` (UberSDR.cpp line 728)
and `DisconnectWebSocket` (UberSDR.cpp line 990).  No path ever decrements
it. -/
inductive GenEvent
  | reconnectAttempt
  | wsDisconnect
deriving DecidableEq, Repr

/-- The generation counter after a sequence of incrementing events, starting
from `g0`. -/
def genAfter (g0 : Nat) : List GenEvent → Nat
  | [] => g0
  | _ :: es => genAfter (g0 + 1) es

/-- The guard at the head of the `setOnMessageCallback` closure
(UberSDR.cpp lines 834-854): under the receiver lock the captured
`currentGeneration` snapshot is compared with the live generation and the
`wsClient` pointer is read; a stale generation or a null pointer drops the
message, and a data message is additionally dropped when the receiver is no
longer active.  Returns whether the message reaches
`HandleWebSocketMessage`. -/
def messageDelivered (currentGeneration snapshot : Nat) (wsClientNull isActive : Bool) :
    Bool :=
  if currentGeneration != snapshot || wsClientNull then false
  else isActive

/-! ## Reconnection task (UberSDR.cpp lines 674-785)

`HandleReconnection` is modelled as a fuel-indexed loop over an environment
oracle.  Time is counted in completed `Sleep(retryDelay)` calls: the
`active`/`needsReconnect` check at the top of iteration `k` reads the flags
at time `k` (before that iteration's sleep), and the HTTP admission and the
WebSocket connect of iteration `k` run at time `k + 1` (after it). -/

structure ReconnEnv where
  active : Nat → Bool
  needsReconnect : Nat → Bool
  admitOk : Nat → Bool
  connectOk : Nat → Bool

/-- Observable actions of the reconnection task. -/
inductive RAction
  | sleep (ms : Nat)
  | httpCheck (ok : Bool)
  | wsConnect (ok : Bool)
  | exitInactive
deriving DecidableEq, Repr

inductive ROutcome
  | connected
  | exited
  | outOfFuel
deriving DecidableEq, Repr

/-- Receiver fields written by the reconnection task. -/
structure RecvCtl where
  state : ConnState
  needsReconnect : Bool
  generation : Nat
deriving DecidableEq, Repr

/-- The backoff update (UberSDR.cpp lines 722 and 782):
`retryDelay = (retryDelay * 2 > maxDelay) ? maxDelay : retryDelay * 2` with
`maxDelay = 60000`. -/
def codeBackoff (delay : Nat) : Nat :=
  if delay * 2 > 60000 then 60000 else delay * 2

/-- `UberSDR::HandleReconnection` (UberSDR.cpp lines 674-785): each
iteration first checks `active && needsReconnect` under the lock and exits
(clearing `needsReconnect` and the thread handle) if the check fails; it
then sleeps `retryDelay` ms, performs the HTTP admission, and on success
increments the generation, rebuilds the URL, swaps the socket and connects;
admission or connect failure doubles the delay (capped at 60000 ms) and
loops; connect success sets `state = CONNECTED`, clears `needsReconnect`
and ends the task.  `fuel` bounds the number of iterations. -/
def runReconnectCode (env : ReconnEnv) :
    Nat → Nat → Nat → RecvCtl → List RAction × ROutcome × RecvCtl
  | 0, _, _, ctl => ([], ROutcome.outOfFuel, ctl)
  | fuel + 1, delay, k, ctl =>
    if env.active k && env.needsReconnect k then
      let t := k + 1
      if env.admitOk t then
        let ctl1 := { ctl with generation := ctl.generation + 1,
                               state := ConnState.CONNECTING }
        if env.connectOk t then
          ([RAction.sleep delay, RAction.httpCheck true, RAction.wsConnect true],
           ROutcome.connected,
           { ctl1 with state := ConnState.CONNECTED, needsReconnect := false })
        else
          let r := runReconnectCode env fuel (codeBackoff delay) t ctl1
          (RAction.sleep delay :: RAction.httpCheck true :: RAction.wsConnect false :: r.1,
           r.2.1, r.2.2)
      else
        let r := runReconnectCode env fuel (codeBackoff delay) t ctl
        (RAction.sleep delay :: RAction.httpCheck false :: r.1, r.2.1, r.2.2)
    else
      ([RAction.exitInactive], ROutcome.exited, { ctl with needsReconnect := false })

/-- The reconnection task as spawned: initial delay 1000 ms
(UberSDR.cpp line 681), starting at time 0. -/
def handleReconnection (env : ReconnEnv) (fuel : Nat) (ctl : RecvCtl) :
    List RAction × ROutcome × RecvCtl :=
  runReconnectCode env fuel 1000 0 ctl

/-- Modelled from the spec: the loop order stated in §4.3 of the
specification — `sleep(d); if !active then exit; admit; ...` — in which the
`active` flag is observed *after* the sleep, at time `k + 1`.  Used only to
compare the claimed loop shape with `runReconnectCode`. -/
def runReconnectSpecOrder (env : ReconnEnv) :
    Nat → Nat → Nat → RecvCtl → List RAction × ROutcome × RecvCtl
  | 0, _, _, ctl => ([], ROutcome.outOfFuel, ctl)
  | fuel + 1, delay, k, ctl =>
    let t := k + 1
    if !(env.active t) then
      ([RAction.sleep delay, RAction.exitInactive], ROutcome.exited,
       { ctl with needsReconnect := false })
    else
      if env.admitOk t then
        let ctl1 := { ctl with generation := ctl.generation + 1,
                               state := ConnState.CONNECTING }
        if env.connectOk t then
          ([RAction.sleep delay, RAction.httpCheck true, RAction.wsConnect true],
           ROutcome.connected,
           { ctl1 with state := ConnState.CONNECTED, needsReconnect := false })
        else
          let r := runReconnectSpecOrder env fuel (min (2 * delay) 60000) t ctl1
          (RAction.sleep delay :: RAction.httpCheck true :: RAction.wsConnect false :: r.1,
           r.2.1, r.2.2)
      else
        let r := runReconnectSpecOrder env fuel (min (2 * delay) 60000) t ctl
        (RAction.sleep delay :: RAction.httpCheck false :: r.1, r.2.1, r.2.2)

/-- The sleep delays occurring in an action trace, in order. -/
def sleepsOf : List RAction → List Nat
  | [] => []
  | RAction.sleep d :: rest => d :: sleepsOf rest
  | _ :: rest => sleepsOf rest

/-- An environment in which the receiver is stopped while the first
`Sleep(retryDelay)` is in progress: active at time 0, inactive from time 1
on, admission and connect succeeding. -/
def reconnEnvEx : ReconnEnv :=
  { active := fun k => k == 0
    needsReconnect := fun _ => true
    admitOk := fun _ => true
    connectOk := fun _ => true }

/-- Initial receiver-control fields when the reconnection task starts. -/
def ctlEx : RecvCtl :=
  { state := ConnState.DISCONNECTED
    needsReconnect := true
    generation := 5 }

/-! ## HTTP admission and WebSocket URL
(UberSDR.cpp lines 285-337, 341-403, 407-439) -/

/-- Whether the first list starts with the second. -/
def leadsWith : List Char → List Char → Bool
  | _, [] => true
  | [], _ :: _ => false
  | c :: cs, p :: ps => c == p && leadsWith cs ps

/-- Substring containment on character lists: the model of
`std::string::find(pat) != npos`. -/
def containsChars : List Char → List Char → Bool
  | [], pat => leadsWith [] pat
  | c :: rest, pat => leadsWith (c :: rest) pat || containsChars rest pat

/-- `response.find(pat) != std::string::npos` on strings. -/
def strContains (s pat : String) : Bool :=
  containsChars s.data pat.data

/-- The admission POST body (UberSDR.cpp lines 308-309):
`{"user_session_id":"<uuid>"}`. -/
def admissionBody (uuid : String) : String :=
  "\x7b\"user_session_id\":\"" ++ uuid ++ "\"\x7d"

/-- The HTTP request assembled by `UberSDR::HttpPost`
(UberSDR.cpp lines 372-381). -/
def httpPostRequest (host : String) (port : Nat) (path body : String) : String :=
  "POST " ++ path ++ " HTTP/1.1\r\n" ++
  "Host: " ++ host ++ ":" ++ toString port ++ "\r\n" ++
  "Content-Type: application/json\r\n" ++
  "User-Agent: UberSDR Client 1.0 (dll)\r\n" ++
  "Content-Length: " ++ toString body.length ++ "\r\n" ++
  "Connection: close\r\n" ++
  "\r\n" ++ body

/-- The success test of `CheckConnectionAllowed` (UberSDR.cpp line 326):
`response.find("\"allowed\":true") != std::string::npos`, applied to the
*entire* HTTP response text (status line, headers and body all included —
`HttpPost` accumulates everything `recv` returns,
UberSDR.cpp lines 392-399). -/
def checkAllowed (response : String) : Bool :=
  strContains response "\"allowed\":true"

/-- `CheckConnectionAllowed` outcome (UberSDR.cpp lines 316-336): `false`
when `HttpPost` itself fails, otherwise the substring test on the response
text. -/
def checkConnectionAllowed (httpOk : Bool) (response : String) : Bool :=
  if !httpOk then false else checkAllowed response

/-- Modelled from the spec: "HTTP 200 with `allowed:true` is the only
success" — an HTTP response whose status line carries code 200.  Used only
to compare the claimed success condition with `checkAllowed`. -/
def isHttp200 (response : String) : Bool :=
  leadsWith response.data "HTTP/1.1 200".data

/-- The admission-failure path of `StartReceiver` (UberSDR.cpp lines
464-471): the receiver is deactivated, put in `ERROR_STATE`, and
`StartReceiver` returns before any WebSocket work.  The boolean reports
whether the flow continues to the WebSocket connection. -/
def startReceiverAdmit (r : ReceiverInfo) (allowed : Bool) : ReceiverInfo × Bool :=
  if !allowed then
    ({ r with active := false, state := ConnState.ERROR_STATE }, false)
  else (r, true)

/-- `UberSDR::BuildWebSocketURL` (UberSDR.cpp lines 407-439): the stored
session UUID is used, except that an empty stored UUID is replaced by a
freshly generated one (`freshUuid`) — the "should not happen" branch at
lines 413-428. -/
def buildWebSocketURL (useSSL : Bool) (host : String) (port : Nat)
    (frequency : Int) (mode storedUuid freshUuid : String) : String :=
  let uuid := if storedUuid = "" then freshUuid else storedUuid
  (if useSSL then "wss://" else "ws://") ++ host ++ ":" ++ toString port ++
    "/ws?frequency=" ++ toString frequency ++ "&mode=" ++ mode ++
    "&user_session_id=" ++ uuid

/-- A non-200 HTTP response whose text contains `"allowed":true`. -/
def resp500Ex : String :=
  "HTTP/1.1 500 Internal Server Error\r\nContent-Type: application/json\r\n\r\n" ++
    "\x7b\"allowed\":true\x7d"

/-! ## int16 I/Q decoding
(SoapyUberSDR.cpp lines 693-699, js8skim/ubersdr.cc lines 462-470,
UberSDRIntf.cpp `ProcessIQData` lines 474-525)

Dividing an int16 (or an int16 shifted into the upper bits of an int32) by
a power of two is exact in IEEE-754 binary floating point, so the float
arithmetic of all three decode paths is embedded in `ℚ` without loss. -/

/-- Reinterpret a `Nat` as a two's-complement `int16_t`. -/
def toInt16 (n : Nat) : Int :=
  if n % 65536 < 32768 then ((n % 65536 : Nat) : Int)
  else ((n % 65536 : Nat) : Int) - 65536

/-- Reinterpret a `Nat` as a two's-complement `int32_t`. -/
def toInt32 (n : Nat) : Int :=
  if n % 4294967296 < 2147483648 then ((n % 4294967296 : Nat) : Int)
  else ((n % 4294967296 : Nat) : Int) - 4294967296

/-- `int32_t` wrap-around of an arbitrary integer (the effect of `int32_t`
overflow on two's-complement hardware). -/
def wrap32 (z : Int) : Int :=
  if z % 4294967296 < 2147483648 then z % 4294967296
  else z % 4294967296 - 4294967296

/-- The Soapy decode (SoapyUberSDR.cpp lines 696-699): big-endian bytes to
`int16_t`, then `std::complex<float>(I / 32768.0f, Q / 32768.0f)`. -/
def soapyDecodeSample (b0 b1 b2 b3 : Nat) : ℚ × ℚ :=
  let I := toInt16 (b0 * 256 + b1)
  let Q := toInt16 (b2 * 256 + b3)
  ((I : ℚ) / 32768, (Q : ℚ) / 32768)

/-- The js8skim scaling (js8skim/ubersdr.cc line 470):
`samples[i] = pcm_data[i] / 32768.0` on an `int16_t` sample value. -/
def js8skimScaleSample (v : Int) : ℚ :=
  (v : ℚ) / 32768

/-- `((int32_t)hi << 24) | ((int32_t)lo << 16)` on two payload bytes
(UberSDRIntf.cpp lines 507-512); the OR of disjoint bit ranges is an
addition, and the `int32_t` result is recovered by two's-complement
reinterpretation. -/
def skimmerI32 (hi lo : Nat) : Int :=
  toInt32 (hi * 16777216 + lo * 65536)

/-- The per-sample conversion of `ProcessIQData` (UberSDRIntf.cpp lines
503-518): bytes `b0 b1` are the big-endian I sample, `b2 b3` the big-endian
Q sample; with `swapIQ` the roles are exchanged; the result is
`((float)I_32 / 2147483648.0f, (float)-Q_32 / 2147483648.0f)` — note the
negation of Q ("Im = -Q to match Hermes").  The C negation `-Q_32` is an
`int` negation, hence wraps at `INT32_MIN` (`wrap32`). -/
def processIQSample (swapIQ : Bool) (b0 b1 b2 b3 : Nat) : ℚ × ℚ :=
  let I32 := if swapIQ then skimmerI32 b2 b3 else skimmerI32 b0 b1
  let Q32 := if swapIQ then skimmerI32 b0 b1 else skimmerI32 b2 b3
  ((I32 : ℚ) / 2147483648, ((wrap32 (-Q32) : ℚ)) / 2147483648)

/-! ## Software frequency shifter (UberSDRIntf.cpp lines 629-658, 1065-1074)

The source computes with `double`s and spells two pi as
`2.0 * 3.14159265358979323846`; that literal is the IEEE-754 double nearest
π, so the double arithmetic is idealised over `ℝ` with `Real.pi`. -/

/-- The phase wrap (UberSDRIntf.cpp lines 650-655): one compensation step,
subtracting or adding `2π` only when the accumulator leaves
`[-2π, 2π]`. -/
noncomputable def wrapPhase (p : ℝ) : ℝ :=
  if p > 2 * Real.pi then p - 2 * Real.pi
  else if p < -(2 * Real.pi) then p + 2 * Real.pi
  else p

/-- One shifter application inside the consumer tick (UberSDRIntf.cpp lines
633-657): a zero `phaseIncrement` bypasses the rotation entirely; otherwise
the sample is rotated by the *current* accumulator value and the
accumulator is then advanced and wrapped.  Returns the (possibly shifted)
sample and the new accumulator. -/
noncomputable def shifterTick (I Q phase inc : ℝ) : (ℝ × ℝ) × ℝ :=
  if inc = 0 then ((I, Q), phase)
  else
    let cosPhase := Real.cos phase
    let sinPhase := Real.sin phase
    ((I * cosPhase - Q * sinPhase, I * sinPhase + Q * cosPhase),
      wrapPhase (phase + inc))

/-- The increment installed by `StartRx` (UberSDRIntf.cpp lines 1068-1069):
`-2.0 * π * totalOffset / (double)gSampleRate`. -/
noncomputable def phaseIncrement (offset sampleRate : ℝ) : ℝ :=
  -2 * Real.pi * offset / sampleRate

/-! ## Consumer pacing (UberSDRIntf.cpp lines 562-826)

`ConsumeRingBuffers` reads one sample per active receiver per iteration.
Iteration `n` computes `targetTicks` for `samplesProcessed = n` (lines
598-601), performs the reads, increments `samplesProcessed`, and only
*then* waits — `Sleep(1)` while more than 1000 µs remain, then a busy-wait
on `QueryPerformanceCounter` until the counter reaches the target (lines
789-810).  The clock value at which the iteration-`n` reads happen is
modelled by `readClock`: iteration `n + 1` starts once the counter has
passed both the end of iteration `n`'s processing (oracle `d n` ticks) and
`targetTicks n`; the oracle `e n` accounts for any extra scheduling delay.
`d = e = 0` with an exact wakeup is an admissible execution (the busy-wait
gives tick precision). -/

/-- `targetTicks` (UberSDRIntf.cpp lines 600-601):
`startTime + samplesProcessed * frequency / sampleRate` in `int64_t`
arithmetic (`Int.tdiv` is C truncating division). -/
def targetTicks (startTime freq rate : Int) (n : Nat) : Int :=
  startTime + Int.tdiv ((n : Int) * freq) rate

/-- The performance-counter value at which the reads of iteration `n`
happen.  Iteration 0 reads immediately after `startTime` is captured
(lines 588-596). -/
def readClock (T0 freq rate : Int) (d e : Nat → Nat) : Nat → Int
  | 0 => T0
  | n + 1 =>
      max (readClock T0 freq rate d e n + (d n : Int)) (targetTicks T0 freq rate n)
        + (e n : Int)

/-- The coarse-sleep decision (UberSDRIntf.cpp lines 796-801): compute
`usRemaining = ticksRemaining * 1000000 / frequency` and `Sleep(1)` while
more than 1000 µs remain. -/
def coarseSleep (ticksRemaining freq : Int) : Bool :=
  Int.tdiv (ticksRemaining * 1000000) freq > 1000

/-- The falling-behind warning condition (UberSDRIntf.cpp lines 811-821):
`ticksRemaining < -frequency / 100` (more than 10 ms behind) and at most
one warning per second (`now - lastWarning > 1000`). -/
def fallingBehindWarn (ticksRemaining freq now lastWarning : Int) : Bool :=
  ticksRemaining < Int.tdiv (-freq) 100 && now - lastWarning > 1000

/-- The warning branch including its state update (UberSDRIntf.cpp lines
813-821): when the warning fires, `lastWarning = now` is stored, which is
what rate-limits the next warning to at least one second later.  Returns
whether a warning was logged and the new `lastWarning`. -/
def warnStep (ticksRemaining freq now lastWarning : Int) : Bool × Int :=
  if fallingBehindWarn ticksRemaining freq now lastWarning then (true, now)
  else (false, lastWarning)

/-! ## Theorems -/

namespace RingBuffer

variable {α : Type}

/-- Under `Wf` the `size_t` computation of `available()` collapses to plain
modular arithmetic on sample indices. -/
theorem availableC_eq (rb : RingBuffer α) (h : rb.Wf) :
    rb.availableC = (rb.writePos + rb.capacity - rb.readPos) % rb.capacity := by
  obtain ⟨hc, hM, hw, hr⟩ := h
  unfold availableC
  rcases le_or_lt rb.readPos rb.writePos with hle | hlt
  · have h1 : MODSIZE + rb.writePos - rb.readPos = MODSIZE + (rb.writePos - rb.readPos) := by
      omega
    have h2 : (MODSIZE + (rb.writePos - rb.readPos)) % MODSIZE = rb.writePos - rb.readPos := by
      rw [Nat.add_mod_left]
      exact Nat.mod_eq_of_lt (by omega)
    have h3 : (rb.writePos - rb.readPos + rb.capacity) % MODSIZE
        = rb.writePos - rb.readPos + rb.capacity := Nat.mod_eq_of_lt (by omega)
    rw [h1, h2, h3]
    have h4 : rb.writePos + rb.capacity - rb.readPos = rb.writePos - rb.readPos + rb.capacity := by
      omega
    rw [h4]
  · have h1 : (MODSIZE + rb.writePos - rb.readPos) % MODSIZE
        = MODSIZE + rb.writePos - rb.readPos := Nat.mod_eq_of_lt (by omega)
    have h2 : MODSIZE + rb.writePos - rb.readPos + rb.capacity
        = MODSIZE + (rb.writePos + rb.capacity - rb.readPos) := by omega
    have h3 : (MODSIZE + (rb.writePos + rb.capacity - rb.readPos)) % MODSIZE
        = rb.writePos + rb.capacity - rb.readPos := by
      rw [Nat.add_mod_left]
      exact Nat.mod_eq_of_lt (by omega)
    rw [h1, h2, h3]

theorem availableC_lt (rb : RingBuffer α) (h : rb.Wf) : rb.availableC < rb.capacity := by
  rw [availableC_eq rb h]
  exact Nat.mod_lt _ h.1

/-- Under `Wf` the `size_t` computation of `space()` collapses to
`capacity - available - 1` (no wrap-around occurs). -/
theorem spaceC_eq (rb : RingBuffer α) (h : rb.Wf) :
    rb.spaceC = rb.capacity - rb.availableC - 1 := by
  have hlt := rb.availableC_lt h
  obtain ⟨hc, hM, _, _⟩ := h
  unfold spaceC
  have h1 : MODSIZE + rb.capacity - rb.availableC
      = MODSIZE + (rb.capacity - rb.availableC) := by omega
  have h2 : (MODSIZE + (rb.capacity - rb.availableC)) % MODSIZE
      = rb.capacity - rb.availableC := by
    rw [Nat.add_mod_left]
    exact Nat.mod_eq_of_lt (by omega)
  rw [h1, h2]
  have h3 : rb.capacity - rb.availableC + (MODSIZE - 1)
      = MODSIZE + (rb.capacity - rb.availableC - 1) := by omega
  rw [h3, Nat.add_mod_left]
  exact Nat.mod_eq_of_lt (by omega)

end RingBuffer

/-- **C3**: for every ring buffer with capacity `C ≥ 1` (well-formed,
as `init` establishes and every operation preserves),
`available() + space() + 1 = C` and `0 ≤ available() ≤ C - 1` hold;
`write(I, Q)` succeeds iff `space() ≥ 1` and otherwise drops the sample,
increments the overrun counter and leaves contents and positions unchanged;
`read()` succeeds iff `available() ≥ 1` and otherwise increments the
underrun counter and returns `none`; the reader never blocks, and on
underrun the consumer substitutes `(0.0, 0.0)`. -/
theorem ringBuffer_ops_ok (rb : RingBuffer Float) (I Q : Float) (h : rb.Wf) :
    (rb.availableC + rb.spaceC + 1 = rb.capacity ∧ rb.availableC ≤ rb.capacity - 1) ∧
    ((rb.write I Q).2 = true ↔ 1 ≤ rb.spaceC) ∧
    ((rb.write I Q).2 = false →
      (rb.write I Q).1 = { rb with overrunCount := rb.overrunCount + 1 }) ∧
    (rb.write I Q).1.Wf ∧
    (rb.read.1.isSome = true ↔ 1 ≤ rb.availableC) ∧
    (rb.read.1 = none → rb.read.2 = { rb with underrunCount := rb.underrunCount + 1 }) ∧
    rb.read.2.Wf ∧
    (rb.availableC < 1 → (consumeReadSample rb).1 = ((0.0 : Float), 0.0)) ∧
    (∀ C : Nat, 0 < C → 2 * C ≤ MODSIZE → (rb.init C).Wf) := by
  have hlt := rb.availableC_lt h
  have hsp := rb.spaceC_eq h
  obtain ⟨hc, hM, hw, hr⟩ := h
  refine ⟨⟨by omega, by omega⟩, ?_, ?_, ?_, ?_, ?_, ?_, ?_, ?_⟩
  · unfold RingBuffer.write
    split_ifs with hs
    · simp only [Bool.false_eq_true, false_iff]
      omega
    · simp only [true_iff]
      omega
  · unfold RingBuffer.write
    split_ifs with hs
    · intro _
      rfl
    · intro hfalse
      simp at hfalse
  · unfold RingBuffer.write
    split_ifs with hs
    · exact ⟨hc, hM, hw, hr⟩
    · exact ⟨hc, hM, Nat.mod_lt _ hc, hr⟩
  · unfold RingBuffer.read
    split_ifs with ha
    · simp only [Option.isSome_none, Bool.false_eq_true, false_iff]
      omega
    · simp only [Option.isSome_some, true_iff]
      omega
  · unfold RingBuffer.read
    split_ifs with ha
    · intro _
      rfl
    · intro hnone
      simp at hnone
  · unfold RingBuffer.read
    split_ifs with ha
    · exact ⟨hc, hM, hw, hr⟩
    · exact ⟨hc, hM, hw, Nat.mod_lt _ hc⟩
  · intro ha
    unfold consumeReadSample RingBuffer.read
    rw [if_pos ha]
  · intro C hC hCM
    exact ⟨hC, hCM, by simpa [RingBuffer.init] using hC, by simpa [RingBuffer.init] using hC⟩

/-- Witness for `ringBuffer_ops_ok` at a concrete capacity-4 buffer. -/
theorem ringBuffer_ops_ok_witness :
    rbEx.Wf ∧ rbEx.availableC + rbEx.spaceC + 1 = rbEx.capacity := by
  have hwf : rbEx.Wf := by
    refine ⟨by decide, by decide, by decide, by decide⟩
  exact ⟨hwf, (ringBuffer_ops_ok rbEx 1.0 2.0 hwf).1.1⟩

theorem applyMask_applyMask (l : List Nat) (mask : Nat → Nat) (i : Nat) :
    applyMask (applyMask l mask i) mask i = l := by
  induction l generalizing i with
  | nil => rfl
  | cons b rest ih =>
      simp only [applyMask, ih, Nat.xor_cancel_right]

/-- **C10**: applying the WebSocket XOR masking (byte `i` XORed with
`key[i % 4]`) twice with the same key is the identity on every payload, so
a masked client frame unmasked with the key carried in that frame yields
the original bytes. -/
theorem maskTwice_eq_self (payload : List Nat) (key : Nat → Nat) :
    applyMask (applyMask payload key 0) key 0 = payload :=
  applyMask_applyMask payload key 0

/-- A receiver whose bit is already set: the fill path changes neither
`gRxFilled` nor any bucket, and (as long as the barrier has not released,
i.e. `gRxFilled ≠ gRxMask`) fires no callback. -/
theorem blockFull_bitSet (s : AsmState) (i : Nat)
    (ht : s.rxFilled.testBit i = true) (hfm : s.rxFilled ≠ s.rxMask) :
    blockFull s i =
      ({ s with
          inPtr := Function.update s.inPtr i (if s.bucket i then Buf.data2 else Buf.data1)
          outPtr := Function.update s.outPtr i (if s.bucket i then Buf.data1 else Buf.data2)
          dataSamples := Function.update s.dataSamples i 0 }, none) := by
  simp only [blockFull, ht, if_true, if_neg hfm]

/-- A receiver filling for the first time in a round, without releasing the
barrier: its bit is ORed in, its bucket toggles, no callback fires. -/
theorem blockFull_newBit_noFire (s : AsmState) (i : Nat)
    (ht : s.rxFilled.testBit i = false)
    (hm : s.rxFilled ||| 2 ^ i ≠ s.rxMask) :
    blockFull s i =
      ({ s with
          rxFilled := s.rxFilled ||| 2 ^ i
          bucket := Function.update s.bucket i (!s.bucket i)
          inPtr := Function.update s.inPtr i (if !s.bucket i then Buf.data2 else Buf.data1)
          outPtr := Function.update s.outPtr i (if !s.bucket i then Buf.data1 else Buf.data2)
          dataSamples := Function.update s.dataSamples i 0 }, none) := by
  simp only [blockFull, ht, Bool.false_eq_true, if_false, if_neg hm, Function.update_same]

/-- A receiver filling for the first time and completing the barrier: the
callback fires with the swapped out-pointer vector and `gRxFilled` is
cleared. -/
theorem blockFull_newBit_fire (s : AsmState) (i : Nat)
    (ht : s.rxFilled.testBit i = false)
    (hm : s.rxFilled ||| 2 ^ i = s.rxMask) :
    blockFull s i =
      ({ s with
          rxFilled := 0
          bucket := Function.update s.bucket i (!s.bucket i)
          inPtr := Function.update s.inPtr i (if !s.bucket i then Buf.data2 else Buf.data1)
          outPtr := Function.update s.outPtr i (if !s.bucket i then Buf.data1 else Buf.data2)
          dataSamples := Function.update s.dataSamples i 0
          totalCallbacks := s.totalCallbacks + 1 },
        some (Function.update s.outPtr i
          (if !s.bucket i then Buf.data1 else Buf.data2))) := by
  simp only [blockFull, ht, Bool.false_eq_true, if_false, if_pos hm, Function.update_same]

/-- **C1**: when receiver `i`'s sample counter reaches `B`, its bit in
`gRxFilled` is set only if not already set; a second fill before the
barrier releases re-toggles neither its bit nor its bucket; the downstream
callback fires exactly when `gRxFilled == gRxMask`, receives the vector of
out-buffer pointers (one per receiver, in receiver order), and immediately
afterwards `gRxFilled` is reset to zero. -/
theorem barrier_fill_ok (s : AsmState) (i : Nat)
    (hfm : s.rxFilled ≠ s.rxMask) :
    (s.rxFilled.testBit i = true →
      (blockFull s i).1.rxFilled = s.rxFilled ∧
      (blockFull s i).1.bucket = s.bucket ∧
      (blockFull s i).2 = none) ∧
    (s.rxFilled.testBit i = false →
      (blockFull s i).1.bucket i = !s.bucket i ∧
      ((blockFull s i).2 = none → (blockFull s i).1.rxFilled = s.rxFilled ||| 2 ^ i)) ∧
    ((blockFull s i).2.isSome = true ↔
      s.rxFilled.testBit i = false ∧ s.rxFilled ||| 2 ^ i = s.rxMask) ∧
    (∀ v, (blockFull s i).2 = some v →
      v = (blockFull s i).1.outPtr ∧
      (blockFull s i).1.rxFilled = 0 ∧
      (blockFull s i).1.totalCallbacks = s.totalCallbacks + 1) ∧
    ((blockFull s i).1.rxFilled = 0 ∨ (blockFull s i).1.rxFilled ≠ s.rxMask) ∧
    (∀ B : Nat, B ≤ s.dataSamples i + 1 →
      receiverTick B s i =
        blockFull { s with
          dataSamples := Function.update s.dataSamples i (s.dataSamples i + 1) } i) ∧
    (∀ B : Nat, s.dataSamples i + 1 < B →
      (receiverTick B s i).2 = none ∧ (receiverTick B s i).1.rxFilled = s.rxFilled) := by
  have htick : ∀ B : Nat, B ≤ s.dataSamples i + 1 →
      receiverTick B s i =
        blockFull { s with
          dataSamples := Function.update s.dataSamples i (s.dataSamples i + 1) } i := by
    intro B hB
    unfold receiverTick
    rw [if_pos hB]
  have htick2 : ∀ B : Nat, s.dataSamples i + 1 < B →
      (receiverTick B s i).2 = none ∧ (receiverTick B s i).1.rxFilled = s.rxFilled := by
    intro B hB
    unfold receiverTick
    rw [if_neg (by omega)]
    exact ⟨rfl, rfl⟩
  by_cases ht : s.rxFilled.testBit i
  · rw [blockFull_bitSet s i ht hfm]
    refine ⟨fun _ => ⟨rfl, rfl, rfl⟩, fun habs => absurd ht (by simp [habs]), ?_, ?_, ?_,
      htick, htick2⟩
    · simp [ht]
    · intro v hv
      simp at hv
    · exact Or.inr hfm
  · have ht' : s.rxFilled.testBit i = false := by simpa using ht
    by_cases hm : s.rxFilled ||| 2 ^ i = s.rxMask
    · rw [blockFull_newBit_fire s i ht' hm]
      refine ⟨fun habs => absurd habs (by simp [ht']), fun _ => ⟨?_, ?_⟩, ?_, ?_, ?_,
        htick, htick2⟩
      · simp [Function.update_same]
      · intro habs
        simp at habs
      · simp [ht', hm]
      · intro v hv
        refine ⟨?_, rfl, rfl⟩
        simpa using hv.symm
      · exact Or.inl rfl
    · rw [blockFull_newBit_noFire s i ht' hm]
      refine ⟨fun habs => absurd habs (by simp [ht']), fun _ => ⟨?_, fun _ => rfl⟩, ?_, ?_, ?_,
        htick, htick2⟩
      · simp [Function.update_same]
      · simp [ht', hm]
      · intro v hv
        simp at hv
      · exact Or.inr hm

/-- Witness for `barrier_fill_ok`: receiver 1 completes the round of the
two-receiver state `asmEx` and releases the barrier. -/
theorem barrier_fill_ok_witness :
    asmEx.rxFilled ≠ asmEx.rxMask ∧
    ((blockFull asmEx 1).2.isSome = true ↔
      asmEx.rxFilled.testBit 1 = false ∧ asmEx.rxFilled ||| 2 ^ 1 = asmEx.rxMask) := by
  have hfm : asmEx.rxFilled ≠ asmEx.rxMask := by decide
  exact ⟨hfm, (barrier_fill_ok asmEx 1 hfm).2.2.1⟩

/-- After the block-full path, `gRxFilled` is zero, unchanged, or the old
value with receiver `j`'s bit ORed in. -/
theorem blockFull_rxFilled_cases (s : AsmState) (j : Nat) :
    (blockFull s j).1.rxFilled = 0 ∨ (blockFull s j).1.rxFilled = s.rxFilled ∨
    (blockFull s j).1.rxFilled = s.rxFilled ||| 2 ^ j := by
  by_cases ht : s.rxFilled.testBit j
  · by_cases hm : s.rxFilled = s.rxMask
    · left
      simp only [blockFull, ht, if_true, if_pos hm]
    · right; left
      simp only [blockFull, ht, if_true, if_neg hm]
  · have ht' : s.rxFilled.testBit j = false := by simpa using ht
    by_cases hm : s.rxFilled ||| 2 ^ j = s.rxMask
    · left
      simp only [blockFull, ht', Bool.false_eq_true, if_false, if_pos hm]
    · right; right
      simp only [blockFull, ht', Bool.false_eq_true, if_false, if_neg hm]

/-- Every bit of `gRxFilled` after the block-full path was either already
set or is the bit of the receiver being processed. -/
theorem blockFull_rxFilled_bits (s : AsmState) (j k : Nat)
    (hk : (blockFull s j).1.rxFilled.testBit k = true) :
    s.rxFilled.testBit k = true ∨ k = j := by
  rcases blockFull_rxFilled_cases s j with h | h | h <;> rw [h] at hk
  · simp [Nat.zero_testBit] at hk
  · exact Or.inl hk
  · have hk2 : s.rxFilled.testBit k = true ∨ (2 ^ j).testBit k = true := by
      simpa [Nat.testBit_or] using hk
    rcases hk2 with h2 | h2
    · exact Or.inl h2
    · right
      by_contra hne
      rw [Nat.testBit_two_pow_of_ne (fun hjk => hne hjk.symm)] at h2
      exact Bool.false_ne_true h2

/-- The consumer tick of an active receiver preserves the invariant that
every bit set in `gRxFilled` belongs to an active receiver
(`ConsumeRingBuffers` skips inactive receivers, UberSDRIntf.cpp
lines 608-610, so only ticks of active receivers occur). -/
theorem receiverTick_bits_active (B : Nat) (s : AsmState) (act : Nat → Bool)
    (j : Nat) (hj : act j = true)
    (hinv : ∀ k, s.rxFilled.testBit k = true → act k = true) :
    ∀ k, (receiverTick B s j).1.rxFilled.testBit k = true → act k = true := by
  intro k hk
  unfold receiverTick at hk
  split_ifs at hk
  · rcases blockFull_rxFilled_bits _ j k hk with h | h
    · exact hinv k h
    · exact h ▸ hj
  · exact hinv k hk

/-- **C4 counterexample**: in `engineEx` both receivers are active (with
live sockets) and both bits are in `gRxMask`; stopping receiver 1
deactivates it but leaves its bit set in `gRxMask` (and leaves `gRxFilled`
untouched) — the claim that the bit is cleared in both masks is false:
`StopReceiver` (UberSDR.cpp lines 502-559) never writes `gRxMask` or
`gRxFilled`. -/
theorem stopReceiver_keepsMaskBit_cex :
    (engineEx.recv 1).active = true ∧
    engineEx.asmSt.rxMask.testBit 1 = true ∧
    ((stopReceiver engineEx 1).recv 1).active = false ∧
    (stopReceiver engineEx 1).asmSt.rxMask.testBit 1 = true ∧
    (stopReceiver engineEx 1).asmSt.rxMask = engineEx.asmSt.rxMask ∧
    (stopReceiver engineEx 1).asmSt.rxFilled = engineEx.asmSt.rxFilled := by
  decide

/-- **C4 (amended)**: `StopReceiver` clears the stopped receiver's `active`
and `needsReconnect` flags, sets its state to `DISCONNECTED`, and tears
down its WebSocket via `DisconnectWebSocket` — incrementing the
generation exactly when a socket was live, so pending callbacks of the old
socket are invalidated — without touching any other receiver's record or
any assembler state (counters, buckets, buffers, `gRxMask`, `gRxFilled`).
Because the stopped receiver's bit stays in `gRxMask` while the consumer
only ever sets `gRxFilled` bits of active receivers, the barrier condition
`gRxFilled == gRxMask` can no longer be met: stopping a stalled receiver
*blocks* the remaining receivers' callbacks instead of releasing them. -/
theorem stopReceiver_effects (e : Engine) (i : Nat) (hi : i < 8)
    (hact : (e.recv i).active = true) :
    ((stopReceiver e i).recv i).active = false ∧
    ((stopReceiver e i).recv i).needsReconnect = false ∧
    ((stopReceiver e i).recv i).state = ConnState.DISCONNECTED ∧
    ((stopReceiver e i).recv i).hasWsClient = false ∧
    ((stopReceiver e i).recv i).generation =
      (if (e.recv i).hasWsClient then (e.recv i).generation + 1
       else (e.recv i).generation) ∧
    (∀ j, j ≠ i → (stopReceiver e i).recv j = e.recv j) ∧
    (stopReceiver e i).asmSt = e.asmSt ∧
    (∀ filled : Nat,
      (∀ j, filled.testBit j = true → ((stopReceiver e i).recv j).active = true) →
      e.asmSt.rxMask.testBit i = true → filled ≠ e.asmSt.rxMask) := by
  have hlt : ¬ 8 ≤ i := by omega
  have hstep : stopReceiver e i =
      { e with
        recv := Function.update e.recv i
          (disconnectWebSocket
            { e.recv i with
              active := false
              needsReconnect := false
              state := ConnState.DISCONNECTED
              hasReconnectThread := false })
        activeReceivers := e.activeReceivers - 1 } := by
    unfold stopReceiver
    rw [if_neg hlt, if_neg (by simp [hact])]
  rw [hstep]
  by_cases hws : (e.recv i).hasWsClient
  · have hdw : disconnectWebSocket
        { e.recv i with
          active := false
          needsReconnect := false
          state := ConnState.DISCONNECTED
          hasReconnectThread := false } =
        { e.recv i with
          active := false
          needsReconnect := false
          state := ConnState.DISCONNECTED
          hasReconnectThread := false
          generation := (e.recv i).generation + 1
          hasWsClient := false } := by
      unfold disconnectWebSocket
      rw [if_pos hws]
    rw [hdw]
    refine ⟨by simp, by simp, by simp, by simp, by simp [hws], ?_, rfl, ?_⟩
    · intro j hj
      simp [Function.update_noteq hj]
    · intro filled hf hmask heq
      have := hf i
      rw [heq, hmask] at this
      simpa using this rfl
  · have hdw : disconnectWebSocket
        { e.recv i with
          active := false
          needsReconnect := false
          state := ConnState.DISCONNECTED
          hasReconnectThread := false } =
        { e.recv i with
          active := false
          needsReconnect := false
          state := ConnState.DISCONNECTED
          hasReconnectThread := false } := by
      unfold disconnectWebSocket
      rw [if_neg hws]
    rw [hdw]
    have hws' : (e.recv i).hasWsClient = false := by simpa using hws
    refine ⟨by simp, by simp, by simp, by simp [hws'], by simp [hws'], ?_, rfl, ?_⟩
    · intro j hj
      simp [Function.update_noteq hj]
    · intro filled hf hmask heq
      have := hf i
      rw [heq, hmask] at this
      simpa using this rfl

/-- Witness for `stopReceiver_effects` at the concrete two-receiver
engine. -/
theorem stopReceiver_effects_witness :
    (1 < 8 ∧ (engineEx.recv 1).active = true) ∧
    ((stopReceiver engineEx 1).recv 1).active = false := by
  refine ⟨⟨by omega, by decide⟩, ?_⟩
  exact (stopReceiver_effects engineEx 1 (by omega) (by decide)).1

/-- `genAfter` adds the number of generation-incrementing events. -/
theorem genAfter_eq (es : List GenEvent) : ∀ g0 : Nat, genAfter g0 es = g0 + es.length := by
  induction es with
  | nil => intro g0; simp [genAfter]
  | cons e rest ih =>
      intro g0
      simp [genAfter, ih]
      omega

/-- **C5**: the generation counter strictly increases across reconnect
cycles (each cycle increments it in `HandleReconnection` or
`DisconnectWebSocket`), and the message callback compares its captured
snapshot with the live generation under the receiver lock, dropping the
message when they differ or when `wsClient` is null — so a callback
installed at an earlier generation delivers nothing after any further
reconnect. -/
theorem generation_filters_stale (g0 : Nat) (es es2 : List GenEvent)
    (hne : es2 ≠ []) (wsNull isActive : Bool) :
    (∀ e : GenEvent, genAfter g0 (es ++ [e]) = genAfter g0 es + 1) ∧
    genAfter g0 es < genAfter g0 (es ++ es2) ∧
    (∀ cur snap : Nat, messageDelivered cur snap wsNull isActive = true →
      cur = snap ∧ wsNull = false ∧ isActive = true) ∧
    messageDelivered (genAfter g0 (es ++ es2)) (genAfter g0 es) wsNull isActive
      = false := by
  have hlen : 0 < es2.length := List.length_pos.mpr hne
  have hstrict : genAfter g0 es < genAfter g0 (es ++ es2) := by
    rw [genAfter_eq, genAfter_eq, List.length_append]
    omega
  have hdel : ∀ cur snap : Nat, messageDelivered cur snap wsNull isActive = true →
      cur = snap ∧ wsNull = false ∧ isActive = true := by
    intro cur snap h
    unfold messageDelivered at h
    by_cases hcond : (cur != snap || wsNull) = true
    · rw [if_pos hcond] at h
      exact absurd h (by simp)
    · rw [if_neg hcond] at h
      have h1 : (cur != snap) = false ∧ wsNull = false := by
        simpa [Bool.or_eq_true, not_or, Bool.not_eq_true] using hcond
      exact ⟨by simpa [bne_eq_false_iff_eq] using h1.1, h1.2, h⟩
  refine ⟨?_, hstrict, hdel, ?_⟩
  · intro e
    rw [genAfter_eq, genAfter_eq, List.length_append]
    simp only [List.length_cons, List.length_nil]
    omega
  · by_contra hT
    have h := hdel _ _ (by simpa using hT)
    omega

/-- Witness for `generation_filters_stale` after one disconnect event. -/
theorem generation_filters_stale_witness :
    ([GenEvent.wsDisconnect] ≠ ([] : List GenEvent)) ∧
    messageDelivered (genAfter 7 ([] ++ [GenEvent.wsDisconnect])) (genAfter 7 [])
      false true = false := by
  refine ⟨by simp, ?_⟩
  exact (generation_filters_stale 7 [] [GenEvent.wsDisconnect] (by simp) false true).2.2.2

/-- The coded backoff equals `min (2·d) 60000`. -/
theorem codeBackoff_eq_min (delay : Nat) : codeBackoff delay = min (2 * delay) 60000 := by
  unfold codeBackoff
  rw [Nat.min_def]
  split_ifs <;> omega

/-- Folding one backoff step into the exponent:
`min (2^n · backoff d) 60000 = min (2^(n+1) · d) 60000`. -/
theorem min_pow_codeBackoff (n delay : Nat) :
    min (2 ^ n * codeBackoff delay) 60000 = min (2 ^ (n + 1) * delay) 60000 := by
  rw [codeBackoff_eq_min]
  have hpow : 1 ≤ 2 ^ n := Nat.one_le_two_pow
  have hexp : 2 ^ (n + 1) * delay = 2 ^ n * (2 * delay) := by ring
  rcases le_or_lt (2 * delay) 60000 with hle | hlt
  · rw [Nat.min_eq_left hle, hexp]
  · rw [Nat.min_eq_right (le_of_lt hlt), hexp]
    have h1 : 60000 ≤ 2 ^ n * 60000 := Nat.le_mul_of_pos_left _ (by omega)
    have h2 : 60000 ≤ 2 ^ n * (2 * delay) :=
      le_trans (le_of_lt hlt) (Nat.le_mul_of_pos_left _ (by omega))
    rw [Nat.min_eq_right h1, Nat.min_eq_right h2]

/-- The `n`-th sleep of the reconnection loop started with delay `d ≤ 60 s`
lasts `min (2^n · d) 60000` ms. -/
theorem runReconnectCode_sleeps (env : ReconnEnv) :
    ∀ (fuel delay k : Nat) (ctl : RecvCtl), delay ≤ 60000 →
      ∀ (n x : Nat),
        (sleepsOf (runReconnectCode env fuel delay k ctl).1).get? n = some x →
        x = min (2 ^ n * delay) 60000 := by
  intro fuel
  induction fuel with
  | zero =>
      intro delay k ctl _ n x hx
      simp [runReconnectCode, sleepsOf] at hx
  | succ fuel ih =>
      intro delay k ctl hd n x hx
      unfold runReconnectCode at hx
      by_cases hact : env.active k && env.needsReconnect k
      · rw [if_pos hact] at hx
        by_cases hadm : env.admitOk (k + 1)
        · rw [if_pos hadm] at hx
          by_cases hcon : env.connectOk (k + 1)
          · rw [if_pos hcon] at hx
            simp only [sleepsOf] at hx
            match n, hx with
            | 0, hx =>
                have hxd : delay = x := by simpa using hx
                have : min (2 ^ 0 * delay) 60000 = delay := by
                  simpa [Nat.min_eq_left] using Nat.min_eq_left (by simpa using hd)
                omega
            | n + 1, hx => simp at hx
          · rw [if_neg hcon] at hx
            simp only [sleepsOf] at hx
            match n, hx with
            | 0, hx =>
                have hxd : delay = x := by simpa using hx
                have : min (2 ^ 0 * delay) 60000 = delay :=
                  by simpa using Nat.min_eq_left (by simpa using hd)
                omega
            | n + 1, hx =>
                have hrec := ih (codeBackoff delay) (k + 1)
                  { ctl with generation := ctl.generation + 1,
                             state := ConnState.CONNECTING }
                  (by rw [codeBackoff_eq_min]; omega) n x (by simpa using hx)
                rw [hrec, min_pow_codeBackoff]
        · rw [if_neg hadm] at hx
          simp only [sleepsOf] at hx
          match n, hx with
          | 0, hx =>
              have hxd : delay = x := by simpa using hx
              have : min (2 ^ 0 * delay) 60000 = delay :=
                by simpa using Nat.min_eq_left (by simpa using hd)
              omega
          | n + 1, hx =>
              have hrec := ih (codeBackoff delay) (k + 1) ctl
                (by rw [codeBackoff_eq_min]; omega) n x (by simpa using hx)
              rw [hrec, min_pow_codeBackoff]
      · rw [if_neg hact] at hx
        simp [sleepsOf] at hx

/-- A `connected` outcome always carries `state = CONNECTED` and a cleared
`needsReconnect`. -/
theorem runReconnectCode_connected (env : ReconnEnv) :
    ∀ (fuel delay k : Nat) (ctl : RecvCtl),
      (runReconnectCode env fuel delay k ctl).2.1 = ROutcome.connected →
      (runReconnectCode env fuel delay k ctl).2.2.state = ConnState.CONNECTED ∧
      (runReconnectCode env fuel delay k ctl).2.2.needsReconnect = false := by
  intro fuel
  induction fuel with
  | zero =>
      intro delay k ctl h
      simp [runReconnectCode] at h
  | succ fuel ih =>
      intro delay k ctl h
      unfold runReconnectCode at h ⊢
      by_cases hact : env.active k && env.needsReconnect k
      · rw [if_pos hact] at h ⊢
        by_cases hadm : env.admitOk (k + 1)
        · rw [if_pos hadm] at h ⊢
          by_cases hcon : env.connectOk (k + 1)
          · rw [if_pos hcon]
            exact ⟨rfl, rfl⟩
          · rw [if_neg hcon] at h ⊢
            exact ih _ _ _ (by simpa using h)
        · rw [if_neg hadm] at h ⊢
          exact ih _ _ _ (by simpa using h)
      · rw [if_neg hact] at h
        simp at h

/-- **C6 counterexample**: `stop()` lands while the first
`Sleep(retryDelay)` is in progress (`reconnEnvEx.active` is true at time 0
and false from time 1 on).  The loop order stated by the claim — sleep,
then exit as soon as `active = false` is observed, then admit — exits
without reconnecting, but `HandleReconnection` as coded checks the flags
*before* sleeping and therefore admits and reconnects after the stop. -/
theorem reconnectLoop_order_cex :
    reconnEnvEx.active 1 = false ∧
    handleReconnection reconnEnvEx 3 ctlEx =
      ([RAction.sleep 1000, RAction.httpCheck true, RAction.wsConnect true],
        ROutcome.connected,
        { state := ConnState.CONNECTED, needsReconnect := false, generation := 6 }) ∧
    runReconnectSpecOrder reconnEnvEx 3 1000 0 ctlEx =
      ([RAction.sleep 1000, RAction.exitInactive], ROutcome.exited,
        { state := ConnState.DISCONNECTED, needsReconnect := false, generation := 5 }) := by
  refine ⟨rfl, ?_, ?_⟩ <;> decide

/-- **C6 (amended)**: the reconnection task checks `active` and
`needsReconnect` at the *top* of each iteration, before that iteration's
sleep — a concurrent `stop()` is observed only at the next iteration — and
when the check fails it exits without admitting or reconnecting; the
initial delay is 1 s and each admission or connect failure updates it by
`d ← min(2d, 60 s)` (so the `n`-th sleep lasts `min(2^n · 1 s, 60 s)`); on
connect success the receiver state becomes `Connected`, `needsReconnect`
is cleared, and the task ends. -/
theorem reconnectLoop_ok (env : ReconnEnv) (fuel delay k : Nat) (ctl : RecvCtl)
    (hstop : env.active k = false ∨ env.needsReconnect k = false) :
    (∀ f2 c2, handleReconnection env f2 c2 = runReconnectCode env f2 1000 0 c2) ∧
    (∀ d2 : Nat, codeBackoff d2 = min (2 * d2) 60000) ∧
    runReconnectCode env (fuel + 1) delay k ctl =
      ([RAction.exitInactive], ROutcome.exited, { ctl with needsReconnect := false }) ∧
    (∀ (f2 k2 : Nat) (c2 : RecvCtl) (n x : Nat),
      (sleepsOf (runReconnectCode env f2 1000 k2 c2).1).get? n = some x →
      x = min (2 ^ n * 1000) 60000) ∧
    (∀ (f2 d2 k2 : Nat) (c2 : RecvCtl),
      (runReconnectCode env f2 d2 k2 c2).2.1 = ROutcome.connected →
      (runReconnectCode env f2 d2 k2 c2).2.2.state = ConnState.CONNECTED ∧
      (runReconnectCode env f2 d2 k2 c2).2.2.needsReconnect = false) := by
  refine ⟨fun _ _ => rfl, codeBackoff_eq_min, ?_, ?_, ?_⟩
  · unfold runReconnectCode
    rw [if_neg]
    rcases hstop with h | h <;> simp [h]
  · intro f2 k2 c2 n x hx
    exact runReconnectCode_sleeps env f2 1000 k2 c2 (by omega) n x hx
  · intro f2 d2 k2 c2 h
    exact runReconnectCode_connected env f2 d2 k2 c2 h

/-- Witness for `reconnectLoop_ok`: at time 2 the example environment is
inactive, and the loop exits without reconnecting. -/
theorem reconnectLoop_ok_witness :
    (reconnEnvEx.active 2 = false ∨ reconnEnvEx.needsReconnect 2 = false) ∧
    runReconnectCode reconnEnvEx 1 500 2 ctlEx =
      ([RAction.exitInactive], ROutcome.exited,
        { ctlEx with needsReconnect := false }) := by
  have h : reconnEnvEx.active 2 = false ∨ reconnEnvEx.needsReconnect 2 = false :=
    Or.inl (by decide)
  exact ⟨h, (reconnectLoop_ok reconnEnvEx 0 500 2 ctlEx h).2.2.1⟩

/-- **C7 counterexample**: `CheckConnectionAllowed` never inspects the HTTP
status line — it substring-searches the whole response text for
`"allowed":true` (UberSDR.cpp line 326).  A `500` response whose body
contains `"allowed":true` is accepted, so "HTTP 200 ... is the only
success" is false. -/
theorem admission_accepts_non200_cex :
    checkAllowed resp500Ex = true ∧
    isHttp200 resp500Ex = false ∧
    checkConnectionAllowed true resp500Ex = true := by
  refine ⟨?_, ?_, ?_⟩ <;> decide

/-- **C7 (amended)**: every admission stores a freshly drawn UUID and posts
`{"user_session_id":"<uuid>"}` to `/connection` with
`Content-Type: application/json`; it succeeds iff the HTTP transaction
completed *and* the response text contains the substring `"allowed":true`
anywhere (the status code is not checked); on admission failure in
`StartReceiver` the receiver is deactivated and put in `ERROR_STATE` with
no WebSocket opened; the stored UUID is the `user_session_id` query
parameter of the subsequent WebSocket URL. -/
theorem admission_flow_ok (httpOk : Bool) (resp : String) (r : ReceiverInfo)
    (ssl : Bool) (host mode uuid fresh : String) (port : Nat) (freq : Int)
    (huuid : uuid ≠ "") :
    (checkConnectionAllowed httpOk resp = true ↔
      httpOk = true ∧ checkAllowed resp = true) ∧
    strContains (httpPostRequest "127.0.0.1" 8080 "/connection" (admissionBody "abc"))
      "POST /connection HTTP/1.1" = true ∧
    strContains (httpPostRequest "127.0.0.1" 8080 "/connection" (admissionBody "abc"))
      "Content-Type: application/json" = true ∧
    strContains (httpPostRequest "127.0.0.1" 8080 "/connection" (admissionBody "abc"))
      "\x7b\"user_session_id\":\"abc\"\x7d" = true ∧
    startReceiverAdmit r false =
      ({ r with active := false, state := ConnState.ERROR_STATE }, false) ∧
    startReceiverAdmit r true = (r, true) ∧
    buildWebSocketURL ssl host port freq mode uuid fresh =
      (if ssl then "wss://" else "ws://") ++ host ++ ":" ++ toString port ++
        "/ws?frequency=" ++ toString freq ++ "&mode=" ++ mode ++
        "&user_session_id=" ++ uuid := by
  refine ⟨?_, by decide, by decide, by decide, rfl, rfl, ?_⟩
  · unfold checkConnectionAllowed
    cases httpOk <;> simp
  · unfold buildWebSocketURL
    rw [if_neg huuid]

/-- Witness for `admission_flow_ok` at concrete inputs. -/
theorem admission_flow_ok_witness :
    ("11111111-2222-3333-4444-555555555555" ≠ "") ∧
    (checkConnectionAllowed true resp500Ex = true ↔
      true = true ∧ checkAllowed resp500Ex = true) := by
  have huuid : "11111111-2222-3333-4444-555555555555" ≠ "" := by decide
  exact ⟨huuid,
    (admission_flow_ok true resp500Ex
      { frequency := 14074000, active := true, state := ConnState.CONNECTED,
        needsReconnect := false, generation := 0, hasWsClient := true,
        hasReconnectThread := false }
      false "127.0.0.1" "iq192" "11111111-2222-3333-4444-555555555555" "f" 8080
      14074000 huuid).1⟩

/-- **C8 counterexample**: at phase 0 with the (nonzero, admissible)
increment `-2π`, the tick rotates by phase 0 and then stores the wrapped
accumulator `-2π`, which lies *outside* the claimed half-open interval
`(-2π, 2π]` — the single compensation step of the code only guarantees the
closed interval `[-2π, 2π]`. -/
theorem shifter_wrap_boundary_cex :
    shifterTick 1 0 0 (-(2 * Real.pi)) = ((1, 0), -(2 * Real.pi)) ∧
    -(2 * Real.pi) ∉ Set.Ioc (-(2 * Real.pi)) (2 * Real.pi) := by
  have hpi := Real.pi_pos
  constructor
  · unfold shifterTick
    rw [if_neg (by intro h; nlinarith)]
    have hwrap : wrapPhase (0 + -(2 * Real.pi)) = -(2 * Real.pi) := by
      unfold wrapPhase
      rw [zero_add, if_neg (by nlinarith), if_neg (by nlinarith)]
    rw [hwrap]
    norm_num [Real.cos_zero, Real.sin_zero]
  · simp only [Set.mem_Ioc, not_and_or, not_lt]
    exact Or.inl (le_refl _)

/-- **C8 (amended)**: with a nonzero increment the shifter outputs
`(I·cos φ − Q·sin φ, I·sin φ + Q·cos φ)` at the current accumulator `φ` and
then advances the accumulator by the increment, wrapping once by `2π`; the
wrap keeps the accumulator in the *closed* interval `[-2π, 2π]` whenever
the increment itself lies in it; a zero increment bypasses the rotation
entirely; and the installed increment is `-2π·offset/sampleRate`, negative
for a positive offset at a positive rate (positive Hz offsets rotate the
spectrum downward). -/
theorem shifter_ok (I Q phase inc offset rate : ℝ)
    (hinc : inc ≠ 0)
    (hpl : -(2 * Real.pi) ≤ phase) (hpu : phase ≤ 2 * Real.pi)
    (hil : -(2 * Real.pi) ≤ inc) (hiu : inc ≤ 2 * Real.pi) :
    (∀ I2 Q2 p2 : ℝ, shifterTick I2 Q2 p2 0 = ((I2, Q2), p2)) ∧
    shifterTick I Q phase inc =
      ((I * Real.cos phase - Q * Real.sin phase,
        I * Real.sin phase + Q * Real.cos phase),
        wrapPhase (phase + inc)) ∧
    (-(2 * Real.pi) ≤ wrapPhase (phase + inc) ∧
      wrapPhase (phase + inc) ≤ 2 * Real.pi) ∧
    phaseIncrement offset rate = -(2 * Real.pi * offset) / rate ∧
    (0 < rate → 0 < offset → phaseIncrement offset rate < 0) := by
  have hpi := Real.pi_pos
  refine ⟨?_, ?_, ?_, ?_, ?_⟩
  · intro I2 Q2 p2
    unfold shifterTick
    rw [if_pos rfl]
  · unfold shifterTick
    rw [if_neg hinc]
  · unfold wrapPhase
    split_ifs with h1 h2
    · constructor <;> nlinarith
    · constructor <;> nlinarith
    · constructor <;> nlinarith
  · unfold phaseIncrement
    ring
  · intro hr ho
    unfold phaseIncrement
    apply div_neg_of_neg_of_pos _ hr
    nlinarith

/-- Witness for `shifter_ok` at phase 0 with increment `2π`, offset 1 Hz
and rate 2 Hz. -/
theorem shifter_ok_witness :
    ((2 * Real.pi ≠ 0) ∧ -(2 * Real.pi) ≤ (0 : ℝ) ∧ (0 : ℝ) ≤ 2 * Real.pi ∧
      -(2 * Real.pi) ≤ 2 * Real.pi ∧ 2 * Real.pi ≤ 2 * Real.pi) ∧
    (∀ I2 Q2 p2 : ℝ, shifterTick I2 Q2 p2 0 = ((I2, Q2), p2)) := by
  have hpi := Real.pi_pos
  have h1 : 2 * Real.pi ≠ 0 := by nlinarith
  have h2 : -(2 * Real.pi) ≤ (0 : ℝ) := by nlinarith
  have h3 : (0 : ℝ) ≤ 2 * Real.pi := by nlinarith
  have h4 : -(2 * Real.pi) ≤ 2 * Real.pi := by nlinarith
  exact ⟨⟨h1, h2, h3, h4, le_refl _⟩,
    (shifter_ok 1 0 0 (2 * Real.pi) 1 2 h1 h2 h3 h4 (le_refl _)).1⟩

/-- Shifting an int16 into bits [31:16] multiplies it by `2^16` in
two's-complement int32 arithmetic. -/
theorem skimmerI32_eq (hi lo : Nat) (hhi : hi < 256) (hlo : lo < 256) :
    skimmerI32 hi lo = toInt16 (hi * 256 + lo) * 65536 := by
  unfold skimmerI32 toInt32 toInt16
  have h1 : (hi * 16777216 + lo * 65536) % 4294967296 = hi * 16777216 + lo * 65536 := by
    omega
  have h2 : (hi * 256 + lo) % 65536 = hi * 256 + lo := by omega
  rw [h1, h2]
  split_ifs with ha hb hb
  · push_cast
    ring
  · omega
  · omega
  · push_cast
    ring

/-- The int16 reinterpretation stays in `[-32768, 32767]`. -/
theorem toInt16_range (n : Nat) : -32768 ≤ toInt16 n ∧ toInt16 n < 32768 := by
  unfold toInt16
  split_ifs <;> omega

/-- `wrap32` is the identity on `[-2^31, 2^31)`. -/
theorem wrap32_small (z : Int) (h1 : -2147483648 ≤ z) (h2 : z < 2147483648) :
    wrap32 z = z := by
  unfold wrap32
  split_ifs <;> omega

/-- Scaling an int16 value by `1/32768` lands in `[-1, 1]`. -/
theorem int16_div_range (x : Int) (h1 : -32768 ≤ x) (h2 : x < 32768) :
    -1 ≤ (x : ℚ) / 32768 ∧ (x : ℚ) / 32768 ≤ 1 := by
  have hx1 : (-32768 : ℚ) ≤ (x : ℚ) := by exact_mod_cast h1
  have hx2 : (x : ℚ) ≤ 32768 := by
    have : (x : ℚ) < 32768 := by exact_mod_cast h2
    linarith
  constructor
  · rw [show (-1 : ℚ) = -32768 / 32768 by norm_num]
    exact (div_le_div_iff_of_pos_right (by norm_num)).mpr hx1
  · rw [show (1 : ℚ) = 32768 / 32768 by norm_num]
    exact (div_le_div_iff_of_pos_right (by norm_num)).mpr hx2

/-- **C9 counterexample**: the CW Skimmer decode path negates Q.  For the
network-order sample pair `I = 0, Q = 1` (bytes `00 00 00 01`),
`ProcessIQData` (without the IQ swap) produces `(0, -1/32768)`, not the
claimed `(I/32768, Q/32768) = (0, 1/32768)`. -/
theorem processIQ_negatesQ_cex :
    toInt16 (0 * 256 + 0) = 0 ∧
    toInt16 (0 * 256 + 1) = 1 ∧
    processIQSample false 0 0 0 1 = (0, -(1 / 32768)) ∧
    processIQSample false 0 0 0 1 ≠
      ((toInt16 (0 * 256 + 0) : ℚ) / 32768, (toInt16 (0 * 256 + 1) : ℚ) / 32768) := by
  have e0 : toInt16 (0 * 256 + 0) = 0 := by decide
  have e1 : toInt16 (0 * 256 + 1) = 1 := by decide
  have hI : skimmerI32 0 0 = 0 := by decide
  have hQ : skimmerI32 0 1 = 65536 := by decide
  have hw : wrap32 (-(65536 : Int)) = -65536 := by decide
  have hmain : processIQSample false 0 0 0 1 = (0, -(1 / 32768)) := by
    unfold processIQSample
    simp only [Bool.false_eq_true, if_false]
    rw [hI, hQ, hw, Prod.mk.injEq]
    constructor <;> norm_num
  refine ⟨e0, e1, hmain, ?_⟩
  rw [hmain, e0, e1]
  intro hcontra
  have h2 := congrArg Prod.snd hcontra
  norm_num at h2

/-- **C9 (amended)**: the Soapy driver and js8skim decode paths scale
network-order int16 samples by exactly `x/32768` (nominally `[-1, 1]`);
the CW Skimmer `ProcessIQData` path instead yields
`(I/32768, -(Q/32768))` — Q is negated to match the Hermes `Im = -Q`
convention — and with the IQ swap enabled the channels are additionally
exchanged; in the single `int16` corner `Q = -32768` the int32 negation
wraps and the output Q is `-1`, not `+1`. -/
theorem decodeScaling_ok (b0 b1 b2 b3 : Nat) (v : Int)
    (h0 : b0 < 256) (h1 : b1 < 256) (h2 : b2 < 256) (h3 : b3 < 256)
    (hv1 : -32768 ≤ v) (hv2 : v < 32768) :
    soapyDecodeSample b0 b1 b2 b3 =
      ((toInt16 (b0 * 256 + b1) : ℚ) / 32768, (toInt16 (b2 * 256 + b3) : ℚ) / 32768) ∧
    (-1 ≤ (soapyDecodeSample b0 b1 b2 b3).1 ∧ (soapyDecodeSample b0 b1 b2 b3).1 ≤ 1) ∧
    (-1 ≤ (soapyDecodeSample b0 b1 b2 b3).2 ∧ (soapyDecodeSample b0 b1 b2 b3).2 ≤ 1) ∧
    (js8skimScaleSample v = (v : ℚ) / 32768 ∧
      -1 ≤ js8skimScaleSample v ∧ js8skimScaleSample v ≤ 1) ∧
    (toInt16 (b2 * 256 + b3) ≠ -32768 →
      processIQSample false b0 b1 b2 b3 =
        ((toInt16 (b0 * 256 + b1) : ℚ) / 32768,
          -((toInt16 (b2 * 256 + b3) : ℚ) / 32768))) ∧
    (toInt16 (b0 * 256 + b1) ≠ -32768 →
      processIQSample true b0 b1 b2 b3 =
        ((toInt16 (b2 * 256 + b3) : ℚ) / 32768,
          -((toInt16 (b0 * 256 + b1) : ℚ) / 32768))) ∧
    (toInt16 (b2 * 256 + b3) = -32768 →
      (processIQSample false b0 b1 b2 b3).2 = -1) := by
  have hI := toInt16_range (b0 * 256 + b1)
  have hQ := toInt16_range (b2 * 256 + b3)
  have hIe := skimmerI32_eq b0 b1 h0 h1
  have hQe := skimmerI32_eq b2 b3 h2 h3
  have hdivI : ((toInt16 (b0 * 256 + b1) * 65536 : Int) : ℚ) / 2147483648
      = (toInt16 (b0 * 256 + b1) : ℚ) / 32768 := by
    push_cast
    field_simp
    ring
  have hdivQ : ∀ q : Int, ((q * 65536 : Int) : ℚ) / 2147483648 = (q : ℚ) / 32768 := by
    intro q
    push_cast
    field_simp
    ring
  refine ⟨rfl, ?_, ?_, ⟨rfl, ?_⟩, ?_, ?_, ?_⟩
  · exact int16_div_range _ hI.1 hI.2
  · exact int16_div_range _ hQ.1 hQ.2
  · exact int16_div_range v hv1 hv2
  · intro hne
    have hq' : -32767 ≤ toInt16 (b2 * 256 + b3) := by
      rcases lt_or_eq_of_le hQ.1 with h | h
      · omega
      · exact absurd h.symm hne
    unfold processIQSample
    simp only [Bool.false_eq_true, if_false]
    rw [hIe, hQe]
    have hw : wrap32 (-(toInt16 (b2 * 256 + b3) * 65536)) =
        -(toInt16 (b2 * 256 + b3) * 65536) := by
      apply wrap32_small
      · have := hQ.2
        omega
      · omega
    rw [hw, Prod.mk.injEq]
    refine ⟨hdivI, ?_⟩
    push_cast
    field_simp
    ring
  · intro hne
    have hq' : -32767 ≤ toInt16 (b0 * 256 + b1) := by
      rcases lt_or_eq_of_le hI.1 with h | h
      · omega
      · exact absurd h.symm hne
    unfold processIQSample
    simp only [if_true]
    rw [hIe, hQe]
    have hw : wrap32 (-(toInt16 (b0 * 256 + b1) * 65536)) =
        -(toInt16 (b0 * 256 + b1) * 65536) := by
      apply wrap32_small
      · have := hI.2
        omega
      · omega
    rw [hw, Prod.mk.injEq]
    constructor
    · push_cast
      field_simp
      ring
    · push_cast
      field_simp
      ring
  · intro hedge
    unfold processIQSample
    simp only [Bool.false_eq_true, if_false]
    rw [hQe, hedge]
    have hw : wrap32 (-(-32768 * 65536)) = -2147483648 := by decide
    rw [hw]
    norm_num

/-- Witness for `decodeScaling_ok` at the bytes `01 02 03 04` and the int16
value 5. -/
theorem decodeScaling_ok_witness :
    ((1 : Nat) < 256 ∧ (2 : Nat) < 256 ∧ (3 : Nat) < 256 ∧ (4 : Nat) < 256 ∧
      (-32768 : Int) ≤ 5 ∧ (5 : Int) < 32768) ∧
    soapyDecodeSample 1 2 3 4 =
      ((toInt16 (1 * 256 + 2) : ℚ) / 32768, (toInt16 (3 * 256 + 4) : ℚ) / 32768) := by
  refine ⟨⟨by omega, by omega, by omega, by omega, by omega, by omega⟩, ?_⟩
  exact (decodeScaling_ok 1 2 3 4 5 (by omega) (by omega) (by omega) (by omega)
    (by omega) (by omega)).1

/-- **C2 counterexample**: the wait to `targetTicks n` happens *after* the
reads of iteration `n` (UberSDRIntf.cpp: reads at lines 606-688, wait at
lines 789-810), so in the admissible execution with instantaneous
processing (`d = e = 0`, counter frequency 10^6 Hz, rate 48000 Hz,
`T0 = 0`) sample 1 is read at counter value 0, *before* its claimed target
`T0 + 1·freq/rate = 20`: the assembler does not wait for sample `n`'s
target before reading sample `n`. -/
theorem pacing_wait_cex :
    readClock 0 1000000 48000 (fun _ => 0) (fun _ => 0) 1 = 0 ∧
    targetTicks 0 1000000 48000 1 = 20 ∧
    readClock 0 1000000 48000 (fun _ => 0) (fun _ => 0) 1 <
      targetTicks 0 1000000 48000 1 := by
  refine ⟨?_, ?_, ?_⟩ <;> decide

/-- **C2 (amended)**: iteration `n` computes
`targetTicks = startTime + n·clockFrequency/sampleRate`, reads its samples,
and then sleeps coarsely (`Sleep(1)` while `usRemaining > 1000`) and
busy-waits until the counter reaches that target — so the clock at which
sample `n + 1` is read is at least `targetTicks n` (the wait precedes the
*next* read, one sample period earlier than the claim states), read times
never decrease, and the loop never reads faster than one tick per
wall-clock sample period; when the loop is more than 10 ms behind
(`ticksRemaining < -freq/100`) it logs a warning rate-limited to one per
second: the warning stores `lastWarning = now`, so two consecutive
warnings are always more than 1000 ms apart. -/
theorem pacing_ok (T0 freq rate : Int) (d e : Nat → Nat)
    (hrate : 0 < rate) (hfreq : 0 ≤ freq) :
    (∀ n : Nat, targetTicks T0 freq rate n = T0 + Int.tdiv ((n : Int) * freq) rate) ∧
    (∀ n : Nat, readClock T0 freq rate d e n ≤ readClock T0 freq rate d e (n + 1)) ∧
    (∀ n : Nat, targetTicks T0 freq rate n ≤ readClock T0 freq rate d e (n + 1)) ∧
    (∀ n : Nat, targetTicks T0 freq rate n ≤ targetTicks T0 freq rate (n + 1)) ∧
    (∀ tr : Int, coarseSleep tr freq = true ↔ 1000 < Int.tdiv (tr * 1000000) freq) ∧
    (∀ tr now lw : Int,
      fallingBehindWarn tr freq now lw = true ↔
        (tr < Int.tdiv (-freq) 100 ∧ 1000 < now - lw)) ∧
    (∀ tr now lw : Int,
      warnStep tr freq now lw =
        (fallingBehindWarn tr freq now lw,
         if fallingBehindWarn tr freq now lw then now else lw)) ∧
    (∀ tr1 tr2 now1 now2 lw : Int,
      (warnStep tr1 freq now1 lw).1 = true →
      (warnStep tr2 freq now2 (warnStep tr1 freq now1 lw).2).1 = true →
      1000 < now2 - now1) := by
  have hsucc : ∀ n : Nat, readClock T0 freq rate d e (n + 1) =
      max (readClock T0 freq rate d e n + (d n : Int)) (targetTicks T0 freq rate n)
        + (e n : Int) := fun _ => rfl
  refine ⟨fun _ => rfl, ?_, ?_, ?_, ?_, ?_, ?_, ?_⟩
  · intro n
    rw [hsucc n]
    have h1 : (0 : Int) ≤ (d n : Int) := Int.natCast_nonneg _
    have h2 : readClock T0 freq rate d e n + (d n : Int) ≤
        max (readClock T0 freq rate d e n + (d n : Int)) (targetTicks T0 freq rate n) :=
      le_max_left _ _
    have h3 : (0 : Int) ≤ (e n : Int) := Int.natCast_nonneg _
    omega
  · intro n
    rw [hsucc n]
    have h2 : targetTicks T0 freq rate n ≤
        max (readClock T0 freq rate d e n + (d n : Int)) (targetTicks T0 freq rate n) :=
      le_max_right _ _
    have h3 : (0 : Int) ≤ (e n : Int) := Int.natCast_nonneg _
    omega
  · intro n
    unfold targetTicks
    have hmul : (n : Int) * freq ≤ ((n + 1 : Nat) : Int) * freq := by
      have : ((n : Int)) ≤ ((n + 1 : Nat) : Int) := by
        push_cast
        omega
      exact mul_le_mul_of_nonneg_right this hfreq
    have hnn : (0 : Int) ≤ (n : Int) * freq :=
      mul_nonneg (Int.natCast_nonneg _) hfreq
    have hnn2 : (0 : Int) ≤ ((n + 1 : Nat) : Int) * freq :=
      mul_nonneg (Int.natCast_nonneg _) hfreq
    have hdiv : Int.tdiv ((n : Int) * freq) rate ≤ Int.tdiv (((n + 1 : Nat) : Int) * freq) rate := by
      rw [Int.tdiv_eq_ediv hnn (le_of_lt hrate), Int.tdiv_eq_ediv hnn2 (le_of_lt hrate)]
      exact Int.ediv_le_ediv hrate hmul
    omega
  · intro tr
    unfold coarseSleep
    simp [decide_eq_true_eq]
  · intro tr now lw
    unfold fallingBehindWarn
    simp [Bool.and_eq_true, decide_eq_true_eq]
  · intro tr now lw
    by_cases h : fallingBehindWarn tr freq now lw = true <;> simp [warnStep, h]
  · intro tr1 tr2 now1 now2 lw h1 h2
    by_cases hc1 : fallingBehindWarn tr1 freq now1 lw = true
    · rw [show (warnStep tr1 freq now1 lw).2 = now1 from by simp [warnStep, hc1]] at h2
      have hc2 : fallingBehindWarn tr2 freq now2 now1 = true := by
        by_cases hb : fallingBehindWarn tr2 freq now2 now1 = true
        · exact hb
        · simp [warnStep, hb] at h2
      unfold fallingBehindWarn at hc2
      rw [Bool.and_eq_true] at hc2
      exact of_decide_eq_true hc2.2
    · simp [warnStep, hc1] at h1

/-- Witness for `pacing_ok` at counter frequency 10^6 Hz and rate
48000 Hz. -/
theorem pacing_ok_witness :
    ((0 : Int) < 48000 ∧ (0 : Int) ≤ 1000000) ∧
    (∀ n : Nat, targetTicks 0 1000000 48000 n ≤
      readClock 0 1000000 48000 (fun _ => 1) (fun _ => 1) (n + 1)) := by
  refine ⟨⟨by omega, by omega⟩, ?_⟩
  exact (pacing_ok 0 1000000 48000 (fun _ => 1) (fun _ => 1)
    (by omega) (by omega)).2.2.1

end UberSDR
